import Mathlib

/-!
Verification of the resumable concurrent crawl engine in
`src/scripts/tr_parser_html.py` (repository aishost/rostfer).

The Python source is shallowly embedded: pure helpers become Lean
functions over `List Char` / `String`, the stateful `ListingParser`
(a `html.parser.HTMLParser` subclass) becomes a fold of a step function
over a stream of tag/data events (the stdlib tokenizer is the external
collaborator that turns raw HTML text into those events), the progress
checkpoint becomes an explicit `Progress` record threaded through the
orchestration functions, and network / database effects become function
parameters (`fetch : Nat → Option Html`) and returned batch lists.
Every price the code builds has the shape `whole + cents/100` with two
decimal places; we represent such a fixed-point value exactly by its
integer number of cents (`12345.67` is the cent count `1234567`), and
any literal a claim compares against is converted the same way, so
equality of cent counts is faithful to equality of the parsed floats.

Python's regex class `\s` and `str.strip()` cover Unicode whitespace; we
model the subset of whitespace characters that actually occurs in the
relevant alphabet (space, tab, LF, CR, VT, FF, NBSP).  Python's `\d`
matches Unicode decimal digits; the embedding models the ASCII range,
which is the alphabet of the site's numerals and of every claim.
-/

namespace TrParserHtml

/-- Non-breaking space U+00A0. -/
def nbsp : Char := Char.ofNat 160

/-- Whitespace set modelling the characters matched by Python's regex
class `\s` and by `str.strip()` in the alphabet relevant here
(space, tab, LF, CR, vertical tab, form feed, and NBSP U+00A0). -/
def isPyWs (c : Char) : Bool :=
  c = ' ' || c = '\t' || c = '\n' || c = '\r' ||
  c = Char.ofNat 11 || c = Char.ofNat 12 || c = nbsp

/-- Strip of leading and trailing whitespace, modelling Python's
`str.strip()`. -/
def pyStripList (cs : List Char) : List Char :=
  ((cs.dropWhile isPyWs).reverse.dropWhile isPyWs).reverse

/-- String version of `pyStripList`. -/
def pyStrip (s : String) : String :=
  ⟨pyStripList s.data⟩

/-- Contiguous-sublist test on character lists. -/
def listInfix (needle : List Char) : List Char → Bool
  | [] => needle.isEmpty
  | c :: rest => needle.isPrefixOf (c :: rest) || listInfix needle rest

/-- Truthiness-respecting `in` test on strings (`needle in hay`). -/
def pyIn (needle hay : String) : Bool :=
  listInfix needle.data hay.data

/-- Value of a list of decimal digit characters, most significant first
(the interpretation `int()` / `float()` give a digit string). -/
def digitsToNat (cs : List Char) : Nat :=
  cs.foldl (fun n c => 10 * n + (c.toNat - 48)) 0

/-- Presence of a decimal digit.  `PRICE_RE.search(p)` succeeds exactly
when `p` contains a digit, because the pattern starts with `\d`. -/
def hasDigit (cs : List Char) : Bool :=
  cs.any Char.isDigit

/-- Search for the regex `PRICE_RE = (\d[\d\s\xa0]*)(?:[.,](\d{2}))?`
(line 50 of the source): the leftmost match starts at the first digit,
group 1 is the maximal run of digits and whitespace from there, and the
optional group captures exactly two digits after a following dot or
comma.  Returns `(group1, optional cents digits)`. -/
def priceSearch (cs : List Char) : Option (List Char × Option (Char × Char)) :=
  let rest := cs.dropWhile (fun c => !c.isDigit)
  match rest with
  | [] => none
  | _ :: _ =>
    let run := rest.takeWhile (fun c => c.isDigit || isPyWs c)
    let after := rest.drop run.length
    let frac :=
      match after with
      | c :: d1 :: d2 :: _ =>
        if (c = '.' || c = ',') && d1.isDigit && d2.isDigit then some (d1, d2)
        else none
      | _ => none
    some (run, frac)

/-- Numeric value of a two-digit cents capture, defaulting to 0 when the
optional group did not match (`cents = m.group(2) or "00"`). -/
def centsVal (frac : Option (Char × Char)) : Nat :=
  match frac with
  | some (d1, d2) => 10 * (d1.toNat - 48) + (d2.toNat - 48)
  | none => 0

/-- Embedding of `parse_price` (lines 52-64).  NBSP is replaced by a
plain space, `PRICE_RE` is searched, group 1 has its plain spaces
removed to form the integer part, and `float(f"{whole}.{cents}")` is
attempted.  That conversion succeeds exactly when the remaining
characters of `whole` are all digits (interior whitespace such as a tab
or newline that the regex run absorbed makes `float` raise, which the
code catches, returning None); the resulting value `whole + cents/100`
is represented exactly by its cent count `100 * whole + cents`. -/
def parse_price (text : String) : Option Nat :=
  if text = "" then none
  else
    let t := text.data.map (fun c => if c = nbsp then ' ' else c)
    match priceSearch t with
    | none => none
    | some (run, frac) =>
      let whole := run.filter (fun c => c ≠ ' ')
      if whole.all Char.isDigit then
        some (100 * digitsToNat whole + centsVal frac)
      else none

/-- Modelled from the spec (claim C8's own words, for comparison with
the code's `parse_price`): locate the first digit run allowing only
plain spaces or non-breaking spaces as thousands separators, optionally
followed by exactly two fraction digits after a dot or comma; return
that value with two decimal places (as its cent count), or none when no
digit exists. -/
def claimPrice (text : String) : Option Nat :=
  let cs := text.data
  let rest := cs.dropWhile (fun c => !c.isDigit)
  match rest with
  | [] => none
  | _ :: _ =>
    let run := rest.takeWhile (fun c => c.isDigit || c = ' ' || c = nbsp)
    let after := rest.drop run.length
    let frac :=
      match after with
      | c :: d1 :: d2 :: _ =>
        if (c = '.' || c = ',') && d1.isDigit && d2.isDigit then some (d1, d2)
        else none
      | _ => none
    some (100 * digitsToNat (run.filter Char.isDigit) + centsVal frac)

/-! ### The listing parser (`ListingParser`, lines 67-303)

`ListingParser` subclasses `html.parser.HTMLParser`; the stdlib
tokenizer turns raw HTML text into a stream of start-tag / end-tag /
character-data events and feeds them to the three handler methods.  The
embedding makes that stream explicit (`HtmlEvent`) and turns the
mutable instance fields into a `ParserState` record folded over the
events.  Attribute values are modelled as strings; a valueless HTML
attribute behaves like an absent one in every read the code performs
(all reads either test truthiness or normalize `None` with `or ""`). -/

/-- One event delivered by the HTML tokenizer. -/
inductive HtmlEvent
  | startTag (tag : String) (attrs : List (String × String))
  | endTag (tag : String)
  | textData (s : String)
deriving DecidableEq

/-- One parsed card (the dict built in `handle_starttag` and filled in
by the other handlers).  Keys that the Python dict may lack
(`product_img`, `slug`) are `Option`; `product_characs` is initialised
on demand in the source via `setdefault`, which coincides with starting
from the empty list.  `price` is a cent count (see `parse_price`). -/
structure Item where
  product_id : String
  name : String
  price : Option Nat
  product_name : String
  product_img : Option String
  product_characs : List (String × String)
  slug : Option String
deriving DecidableEq

/-- Mutable fields of `ListingParser` (lines 73-89). -/
structure ParserState where
  items : List Item
  in_item : Bool
  depth : Nat
  cur : Option Item
  text_buf : List String
  in_price_block : Bool
  price_text_buf : List String
  in_characs_list : Bool
  characs_depth : Nat
  in_char_li : Bool
  char_li_buf : List String
  in_name_link : Bool
  name_link_buf : List String
deriving DecidableEq

/-- Initial state set in `__init__`. -/
def initState : ParserState :=
  { items := [], in_item := false, depth := 0, cur := none, text_buf := [],
    in_price_block := false, price_text_buf := [], in_characs_list := false,
    characs_depth := 0, in_char_li := false, char_li_buf := [],
    in_name_link := false, name_link_buf := [] }

/-- Lookup in `dict(attrs)`: with duplicate attribute names the last
occurrence wins. -/
def attrGet (attrs : List (String × String)) (k : String) : Option String :=
  ((attrs.filter (fun p => p.1 = k)).getLast?).map Prod.snd

/-- First truthy value of a Python `or` chain over optional strings. -/
def firstTruthy (l : List (Option String)) : Option String :=
  l.findSome? (fun o =>
    match o with
    | some s => if s = "" then none else some s
    | none => none)

/-- Lowercasing for `cls.lower()` (class names here are ASCII). -/
def toLowerStr (s : String) : String :=
  ⟨s.data.map Char.toLower⟩

/-- Join a buffer with single spaces, `" ".join(buf)`. -/
def joinSpace (buf : List String) : String :=
  String.intercalate " " buf

/-- Site base used by `urljoin` (line 20). -/
def BASE_URL : String := "https://truboproduct.ru"

/-- Model of `urljoin(BASE_URL, src)` for the URL shapes occurring in
listing markup: an absolute URL is kept, a scheme-relative or
host-relative reference is resolved against the base, and a bare
relative reference is attached under the base (whose path is empty). -/
def urljoinBase (src : String) : String :=
  if pyIn "://" src then src
  else if src.startsWith "//" then "https:" ++ src
  else if src.startsWith "/" then BASE_URL ++ src
  else BASE_URL ++ "/" ++ src

/-- Drop everything up to and including the first `://`. -/
def dropSchemeSep : List Char → List Char
  | [] => []
  | ':' :: '/' :: '/' :: rest => rest
  | _ :: rest => dropSchemeSep rest

/-- Model of `urlparse(href).path` for http(s) URLs: the part of the
reference from the first slash after the authority, with any query or
fragment removed. -/
def urlparsePath (href : String) : String :=
  let rest := dropSchemeSep href.data
  let path := rest.dropWhile (fun c => c ≠ '/')
  ⟨path.takeWhile (fun c => c ≠ '?' && c ≠ '#')⟩

/-- Strip of leading and trailing slashes, `s.strip("/")`. -/
def stripSlashes (s : String) : String :=
  ⟨((s.data.dropWhile (fun c => c = '/')).reverse.dropWhile (fun c => c = '/')).reverse⟩

/-- Slug extraction from an anchor href (lines 174-189): take the path
of an absolute URL, strip slashes, strip a leading `product/`, strip
slashes again; empty results are discarded. -/
def slugFromHref (href : String) : Option String :=
  let path := if pyIn "://" href then urlparsePath href else href
  let s := stripSlashes path
  let s := if s.startsWith "product/" then s.drop 8 else s
  let s := stripSlashes s
  if s = "" then none else some s

/-- Characteristic separator characters of the fallback regex
`\s*[:\-–—]\s*` (line 202). -/
def isCharSep (c : Char) : Bool :=
  c = ':' || c = '-' || c = '–' || c = '—'

/-- Bullet characters of the key-cleaning regex `[-–—•]+` (line 212). -/
def isBullet (c : Char) : Bool :=
  c = '-' || c = '–' || c = '—' || c = '•'

/-- Split at the first occurrence of the two-character separator
`": "`, removing it (`text.split(": ", 1)`); only called when the
separator is present. -/
def splitColonSpace : List Char → List Char × List Char
  | [] => ([], [])
  | ':' :: ' ' :: rest => ([], rest)
  | c :: rest =>
    let p := splitColonSpace rest
    (c :: p.1, p.2)

/-- Key cleaning (lines 209-214): remove a leading run of whitespace,
then at least one bullet, then whitespace (the regex matches only when
a bullet is present), strip the remainder, and fall back to the
original key when cleaning leaves nothing. -/
def cleanCharKey (ch : String) : String :=
  let t := ch.data.dropWhile isPyWs
  let cleaned :=
    if (t.takeWhile isBullet).isEmpty then pyStrip ch
    else pyStrip ⟨(t.dropWhile isBullet).dropWhile isPyWs⟩
  if cleaned = "" then ch else cleaned

/-- Split of one characteristic's text into key and value
(lines 195-214): first try the literal `": "`; otherwise split at the
first colon/dash separator (the regex consumes surrounding whitespace,
which the subsequent `strip()` calls make equivalent to stripping both
halves); with no separator the whole text becomes the value with an
empty key.  The key is then bullet-cleaned. -/
def splitCharac (text : String) : String × String :=
  let p :=
    if pyIn ": " text then
      let q := splitColonSpace text.data
      (pyStrip ⟨q.1⟩, pyStrip ⟨q.2⟩)
    else
      match text.data.findIdx? isCharSep with
      | some j => (pyStrip ⟨text.data.take j⟩, pyStrip ⟨text.data.drop (j + 1)⟩)
      | none => ("", text)
  (cleanCharKey p.1, p.2)

/-- Fragment split of the heuristic name search,
`re.split(r"\s{2,}|[|\n\r]", full_text)` (line 253): a run of two or
more whitespace characters, or a single pipe, LF or CR, separates
fragments; the alternation prefers the greedy whitespace run. -/
def splitNameFragments : List Char → List Char → List (List Char)
  | [], acc => [acc.reverse]
  | c :: rest, acc =>
    if isPyWs c && (match rest with | c2 :: _ => isPyWs c2 | [] => false) then
      acc.reverse :: splitNameFragments (rest.dropWhile isPyWs) []
    else if c = '|' || c = '\n' || c = '\r' then
      acc.reverse :: splitNameFragments rest []
    else
      splitNameFragments rest (c :: acc)
termination_by cs _ => cs.length
decreasing_by
  · simp only [List.length_cons]
    exact Nat.lt_succ_of_le (List.Sublist.length_le (List.dropWhile_sublist _))
  · simp [Nat.lt_succ_self]
  · simp [Nat.lt_succ_self]

/-- Name heuristic of `_finalize_item` (lines 251-257): the first
fragment that is nonempty after stripping, contains no digit (no
`PRICE_RE` match), and is at least 10 characters long. -/
def nameHeuristic (full_text : String) : String :=
  let frags := (splitNameFragments full_text.data []).map pyStripList
  match frags.find? (fun p => !p.isEmpty && !hasDigit p && decide (10 ≤ p.length)) with
  | some p => ⟨p⟩
  | none => ""

/-- Embedding of `_finalize_item` (lines 245-278): fill a missing name
from the accumulated text, default the short name to the name, parse
the price from the price buffer (falling back to the whole text), emit
the card, and reset the per-card state. -/
def finalize_item (st : ParserState) : ParserState :=
  match st.cur with
  | none => st
  | some c0 =>
    let c1 :=
      if c0.name = "" then
        { c0 with name := nameHeuristic (pyStrip (joinSpace st.text_buf)) }
      else c0
    let c2 := if c1.product_name = "" then { c1 with product_name := c1.name } else c1
    let price_text := pyStrip (joinSpace st.price_text_buf)
    let price_text := if price_text = "" then pyStrip (joinSpace st.text_buf) else price_text
    let c3 := { c2 with price := parse_price price_text }
    { st with
      items := st.items ++ [c3], in_item := false, cur := none,
      text_buf := [], in_price_block := false, price_text_buf := [] }

/-- Body of `handle_starttag` once a tag other than a new card start is
seen while inside a card (lines 117-189). -/
def inItemStart (st0 : ParserState) (tag : String) (attrs : List (String × String)) : ParserState :=
  let st := { st0 with depth := st0.depth + 1 }
  let content := attrGet attrs "content"
  let st :=
    if tag = "meta" && attrGet attrs "itemprop" = some "name" && (content.getD "") ≠ "" then
      { st with cur := st.cur.map (fun c => { c with name := pyStrip (content.getD "") }) }
    else st
  let cls := (attrGet attrs "class").getD ""
  let st := if pyIn "price" (toLowerStr cls) then { st with in_price_block := true } else st
  let st :=
    if tag = "img" then
      match st.cur with
      | some c =>
        if c.product_img.getD "" = "" then
          let img_src := pyStrip ((firstTruthy
            [attrGet attrs "data-src", attrGet attrs "src", attrGet attrs "data-original"]).getD "")
          if img_src ≠ "" then
            { st with cur := some { c with product_img := some (urljoinBase img_src) } }
          else st
        else st
      | none => st
    else st
  if tag = "ul" && pyIn "listing-cards__list" ((attrGet attrs "class").getD "") then
    { st with in_characs_list := true, characs_depth := 1 }
  else
    let st :=
      if st.in_characs_list then
        let st := { st with characs_depth := st.characs_depth + 1 }
        if tag = "li" then { st with in_char_li := true, char_li_buf := [] } else st
      else st
    if tag = "a" then
      let a_cls := (attrGet attrs "class").getD ""
      if pyIn "listing-cards__link" a_cls then
        let st := { st with in_name_link := true, name_link_buf := [] }
        let href := pyStrip ((attrGet attrs "href").getD "")
        let slugMissing :=
          match st.cur with
          | some c => c.slug.getD "" = ""
          | none => false
        if href ≠ "" && slugMissing then
          match slugFromHref href with
          | some s => { st with cur := st.cur.map (fun c => { c with slug := some s }) }
          | none => st
        else st
      else st
    else st

/-- Embedding of `handle_starttag` (lines 91-189).  A `li` carrying the
`listing-cards__item` class and a truthy product-id data attribute
starts a new card, finalizing a still-open one first (defensive
recovery for unclosed markup); any other tag while inside a card is
handled by `inItemStart`. -/
def handle_starttag (st : ParserState) (tag : String) (attrs : List (String × String)) : ParserState :=
  let cls := (attrGet attrs "class").getD ""
  let pid := firstTruthy
    [attrGet attrs "data-product-id", attrGet attrs "data-id", attrGet attrs "data-productid"]
  if tag = "li" && pyIn "listing-cards__item" cls && pid.isSome then
    let st := if st.in_item && st.cur.isSome then finalize_item st else st
    { st with
      in_item := true, depth := 1,
      cur := some
        { product_id := pyStrip (pid.getD ""), name := "", price := none,
          product_name := pyStrip ((attrGet attrs "data-product-name").getD ""),
          product_img := none, product_characs := [], slug := none },
      text_buf := [], in_price_block := false, price_text_buf := [] }
  else if st.in_item then inItemStart st tag attrs
  else st

/-- Embedding of `handle_endtag` (lines 191-243).  The price-block
reset in the source reads `self._last_class`, a field that is never
assigned, so that branch never fires and is omitted. -/
def handle_endtag (st0 : ParserState) (tag : String) : ParserState :=
  let st :=
    if st0.in_char_li && tag = "li" then
      let text := pyStrip (joinSpace st0.char_li_buf)
      let st :=
        if st0.cur.isSome && text ≠ "" then
          { st0 with cur := st0.cur.map (fun c =>
            { c with product_characs := c.product_characs ++ [splitCharac text] }) }
        else st0
      { st with in_char_li := false, char_li_buf := [] }
    else st0
  let st :=
    if st.in_characs_list then
      if st.characs_depth ≤ 1 then { st with in_characs_list := false, characs_depth := 0 }
      else { st with characs_depth := st.characs_depth - 1 }
    else st
  let st :=
    if st.in_name_link && tag = "a" then
      let text := pyStrip (joinSpace st.name_link_buf)
      let st2 :=
        if st.cur.isSome && text ≠ "" then
          { st with cur := st.cur.map (fun c => { c with product_name := text }) }
        else st
      { st2 with in_name_link := false, name_link_buf := [] }
    else st
  if st.in_item then
    let st1 : ParserState := { st with depth := st.depth - 1 }
    if st1.depth = 0 then finalize_item st1 else st1
  else st

/-- Embedding of `handle_data` (lines 280-297). -/
def handle_data (st : ParserState) (d : String) : ParserState :=
  if st.in_item && d ≠ "" then
    let s := pyStrip d
    if s = "" then st
    else
      let st := { st with text_buf := st.text_buf ++ [s] }
      let st := if st.in_price_block then { st with price_text_buf := st.price_text_buf ++ [s] } else st
      let st := if st.in_char_li then { st with char_li_buf := st.char_li_buf ++ [s] } else st
      if st.in_name_link then { st with name_link_buf := st.name_link_buf ++ [s] } else st
  else st

/-- Dispatch of one tokenizer event to the matching handler. -/
def feedEvent (st : ParserState) : HtmlEvent → ParserState
  | .startTag tag attrs => handle_starttag st tag attrs
  | .endTag tag => handle_endtag st tag
  | .textData s => handle_data st s

/-- Feed a whole event stream and `close()` (lines 299-303): a card
still open at the end of input is finalized. -/
def runListing (events : List HtmlEvent) : ParserState :=
  let st := events.foldl feedEvent initState
  if st.in_item && st.cur.isSome then finalize_item st else st

/-- Embedding of `extract_products_from_html` (lines 306-318): parse,
then keep only the items with a truthy name and a non-None price. -/
def extract_products_from_html (events : List HtmlEvent) : List Item :=
  (runListing events).items.filter (fun it => it.name ≠ "" && it.price.isSome)

/-! ### Fetched documents, pagination, and the retry loop -/

/-- A successfully fetched, non-empty listing document.  `events` is
what the HTML tokenizer delivers for it; `pageMarkers` abstracts the
raw text's `page__N` pagination links as the numbers `N` that
`re.findall(r"page__\s*(\d+)", html)` returns, in document order.
A failed fetch (or the empty body that `async_fetch_listing` never
returns) is the `none` of `Option Html`. -/
structure Html where
  events : List HtmlEvent
  pageMarkers : List Nat
deriving DecidableEq

/-- Embedding of `get_total_pages` (lines 601-612): 0 for a falsy
document, otherwise the maximum `page__N` marker, defaulting to 1 when
no pagination is found. -/
def get_total_pages (html : Option Html) : Nat :=
  match html with
  | none => 0
  | some h => if h.pageMarkers.isEmpty then 1 else h.pageMarkers.foldl Nat.max 0

/-- HTTP / transport outcome of one attempt of the retry loop.  The
four retryable exceptions of line 426 are separate constructors;
`otherError` is the bare `except Exception` of line 430. -/
inductive FetchResp
  | http (code : Nat) (body : Option Html)
  | readTimeout
  | connectTimeout
  | remoteProtocolError
  | connectError
  | otherError
deriving DecidableEq

/-- Statuses retried by `async_fetch_listing` (line 421). -/
def retryableStatus (code : Nat) : Bool :=
  code = 429 || code = 500 || code = 502 || code = 503 || code = 504

/-- Retry loop of `async_fetch_listing` (lines 413-432) over the
outcomes of successive attempts.  Backoff delays are modelled in units
of the base delay `ASYNC_BASE_DELAY = 0.25 s`, exactly: the loop
starts at 1 unit and doubles, capped at `8.0 s = 32` units.  Returns
the fetched body (or `none`) together with the sleeps performed. -/
def fetchGo (resp : Nat → FetchResp) (attempt : Nat) :
    Nat → Nat → List Nat → Option Html × List Nat
  | 0, _, sleeps => (none, sleeps)
  | remaining + 1, backoff, sleeps =>
    match resp attempt with
    | .http code body =>
      if code = 200 && body.isSome then (body, sleeps)
      else if retryableStatus code then
        fetchGo resp (attempt + 1) remaining (min (backoff * 2) 32) (sleeps ++ [backoff])
      else (none, sleeps)
    | .otherError => (none, sleeps)
    | _ => fetchGo resp (attempt + 1) remaining (min (backoff * 2) 32) (sleeps ++ [backoff])

/-- Embedding of `async_fetch_listing`: at most 4 attempts
(`for attempt in range(4)`), base backoff 1 unit (0.25 s). -/
def async_fetch_listing (resp : Nat → FetchResp) : Option Html × List Nat :=
  fetchGo resp 0 4 1 []

/-! ### The progress checkpoint -/

/-- Persistent checkpoint document (`load_progress`, lines 881-890):
`{"completed_categories": [...], "category_pages": {...}}`.  The JSON
object `category_pages` maps `str(category_id)` to the next page; it is
modelled as a key-unique association list in insertion order. -/
structure Progress where
  completed_categories : List Int
  category_pages : List (String × Nat)
deriving DecidableEq

/-- Dict read `m.get(k)`.  Keys are unique (every write goes through
`setKey`), so the first match is the binding. -/
def getKey (m : List (String × Nat)) (k : String) : Option Nat :=
  (m.find? (fun p => p.1 = k)).map Prod.snd

/-- Dict write `m[k] = v`: update in place, else append. -/
def setKey (m : List (String × Nat)) (k : String) (v : Nat) : List (String × Nat) :=
  if m.any (fun p => p.1 = k) then m.map (fun p => if p.1 = k then (k, v) else p)
  else m ++ [(k, v)]

/-- Dict delete guarded by membership (`if k in m: del m[k]`). -/
def delKey (m : List (String × Nat)) (k : String) : List (String × Nat) :=
  m.filter (fun p => p.1 ≠ k)

/-- Ascending insertion used to model Python's `sorted`. -/
def insertSortedInt (x : Int) : List Int → List Int
  | [] => [x]
  | y :: rest => if x ≤ y then x :: y :: rest else y :: insertSortedInt x rest

/-- Ascending sort of a list of integers (`sorted(...)`). -/
def sortInts (l : List Int) : List Int :=
  l.foldr insertSortedInt []

/-- One observable content of the checkpoint file. -/
inductive FileState
  | full (p : Progress)
  | truncated
deriving DecidableEq

/-- Embedding of `save_progress` (lines 893-899): the JSON text is
built in memory and then written by `open(path, "w")` followed by
`f.write(...)` — directly into the checkpoint file, with no temporary
file and no rename.  Opening with mode `"w"` truncates the file before
the new bytes land, so the sequence of contents a concurrent reader can
observe during one save is: the old document, a truncated file, the new
document. -/
def save_progress (old new : Progress) : List FileState :=
  [.full old, .truncated, .full new]

/-- Write-temp-then-replace persistence, modelled from the spec (the
behaviour claim C2 asserts): the replacement is atomic, so a reader
observes only the old or the new complete document. -/
def atomicSave (old new : Progress) : List FileState :=
  [.full old, .full new]

/-! ### Batch construction and the upsert sink -/

/-- Conversion `int(s)` on a string: optional surrounding whitespace,
optional sign, at least one digit (underscore grouping, which cannot
occur in the site's id attributes, is not modelled); any other shape
raises, which the caller catches by keeping the string. -/
def pyIntOfString (s : String) : Option Int :=
  let t := pyStripList s.data
  let core : Option Int :=
    match t with
    | '-' :: ds => if !ds.isEmpty && ds.all Char.isDigit then some (-(digitsToNat ds : Int)) else none
    | '+' :: ds => if !ds.isEmpty && ds.all Char.isDigit then some (digitsToNat ds : Int) else none
    | ds => if !ds.isEmpty && ds.all Char.isDigit then some (digitsToNat ds : Int) else none
  core

/-- One element of the batch built in `process_page` (lines 452-468);
`product_id` keeps the string when `int()` fails.  `product_characs`
is serialized to JSON in the source; the JSON array is in bijection
with the pair list, so the list itself is kept. -/
structure BatchEntry where
  name : String
  price : Option Nat
  category_id : Int
  category_slug : String
  product_id : Int ⊕ String
  product_name : String
  product_img : Option String
  product_characs : List (String × String)
  slug : Option String
deriving DecidableEq

/-- Batch-dict construction for one parsed item (lines 452-468). -/
def mkBatchEntry (prod : Item) (category_id : Int) (category_slug : String) : BatchEntry :=
  { name := prod.name, price := prod.price,
    category_id := category_id, category_slug := category_slug,
    product_id :=
      match pyIntOfString prod.product_id with
      | some n => .inl n
      | none => .inr prod.product_id,
    product_name := prod.product_name, product_img := prod.product_img,
    product_characs := prod.product_characs, slug := prod.slug }

/-- One row as bound by the `INSERT INTO tr_products_raw` statement of
`upsert_products` (lines 745-784).  The column list starts with the
primary key `sku`, and the VALUES clause binds it to `%(name)s` — the
batch entry's `name` field. -/
structure Row where
  sku : String
  price : Option Nat
  category_id : Int
  category_slug : String
  product_id : Int ⊕ String
  product_name : String
  product_img : Option String
  product_characs : List (String × String)
  slug : Option String
deriving DecidableEq

/-- Embedding of `upsert_products` (lines 745-784): the rows handed to
the storage collaborator, one per batch entry, with the parameter
binding of the VALUES clause (in particular `sku := entry.name`). -/
def upsert_products (batch : List BatchEntry) : List Row :=
  batch.map (fun b =>
    { sku := b.name, price := b.price,
      category_id := b.category_id, category_slug := b.category_slug,
      product_id := b.product_id, product_name := b.product_name,
      product_img := b.product_img, product_characs := b.product_characs,
      slug := b.slug })

/-! ### Page and category processing -/

/-- Embedding of `process_page` (lines 440-479).  The fetch for this
page (proxy selection and client pooling do not affect the result and
are absorbed into `fetch`) either fails (`none`) or yields a document;
an empty extraction returns `False` without touching the checkpoint;
otherwise the batch is built, upserted, and under the progress lock the
category's cursor is set to `page + 1` and saved.  Returns the success
flag, the progress state after this page, and the upserted batch. -/
def process_page (fetch : Nat → Option Html) (page : Nat)
    (category_id : Int) (category_slug : String) (pr : Progress) :
    Bool × Progress × List BatchEntry :=
  match fetch page with
  | none => (false, pr, [])
  | some html =>
    let items := extract_products_from_html html.events
    if items.isEmpty then (false, pr, [])
    else
      let batch := items.map (fun prod => mkBatchEntry prod category_id category_slug)
      let pr2 : Progress :=
        { pr with category_pages := setKey pr.category_pages (toString category_id) (page + 1) }
      (true, pr2, batch)

/-- Completion block of `process_category_async` (lines 509-518): add
the category to the sorted completed set and delete its cursor, then
save. -/
def complete_category (pr : Progress) (category_id : Int) : Progress :=
  { completed_categories := sortInts ((category_id :: pr.completed_categories).dedup),
    category_pages := delKey pr.category_pages (toString category_id) }

/-- Resume cursor read at line 486:
`int(progress.get("category_pages", {}).get(str(category_id), 1))`. -/
def start_page_of (pr : Progress) (category_id : Int) : Nat :=
  (getKey pr.category_pages (toString category_id)).getD 1

/-- Pages scheduled at line 501: `range(start_page, total_pages + 1)`. -/
def scheduledPages (start_page total_pages : Nat) : List Nat :=
  List.range' start_page (total_pages + 1 - start_page)

/-- Result of one category run: the final progress, the sequence of
progress states persisted by `save_progress` (one per successful page,
in completion order, plus the completion save), the page numbers passed
to `async_fetch_listing`, and the upserted batches. -/
structure CategoryRun where
  final : Progress
  persistTrace : List Progress
  fetchedPages : List Nat
  batches : List (List BatchEntry)
deriving DecidableEq

/-- Effect of one page task's completion on the accumulated state (the
progress after the previous completions, the persisted snapshots, and
the upserted batches): a successful page appends its persisted progress
and its batch, a failed page (fetch failure or empty extraction)
changes nothing. -/
def categoryStep (fetch : Nat → Option Html) (category_id : Int) (category_slug : String)
    (acc : Progress × List Progress × List (List BatchEntry)) (p : Nat) :
    Progress × List Progress × List (List BatchEntry) :=
  let r := process_page fetch p category_id category_slug acc.1
  if r.1 then (r.2.1, acc.2.1 ++ [r.2.1], acc.2.2 ++ [r.2.2]) else acc

/-- Embedding of `process_category_async` (lines 482-518).  Page 1 is
fetched first to determine `total_pages` (`async_get_total_pages`,
lines 435-437); a zero total returns at line 491 with no checkpoint
mutation.  Otherwise every page of the scheduled range is fetched and
processed by its own task; the bounded-concurrency scheduler completes
those tasks in some order `order` (any permutation of the scheduled
range — the checkpoint lock serializes the progress updates, so a run
is exactly this fold over its completion order; a page raising is
swallowed by the `as_completed` loop).  Afterwards the category is
unconditionally marked complete. -/
def process_category_async (fetch : Nat → Option Html) (category_id : Int)
    (category_slug : String) (pr0 : Progress) (order : List Nat) : CategoryRun :=
  let total_pages := get_total_pages (fetch 1)
  if total_pages = 0 then
    { final := pr0, persistTrace := [], fetchedPages := [1], batches := [] }
  else
    let res := order.foldl (categoryStep fetch category_id category_slug) (pr0, [], [])
    let prDone := complete_category res.1 category_id
    { final := prDone, persistTrace := res.2.1 ++ [prDone],
      fetchedPages := 1 :: order, batches := res.2.2 }

/-- A category run whose tasks complete in schedule order (the
completion order is the scheduled range itself). -/
def process_category_seq (fetch : Nat → Option Html) (category_id : Int)
    (category_slug : String) (pr0 : Progress) : CategoryRun :=
  process_category_async fetch category_id category_slug pr0
    (scheduledPages (start_page_of pr0 category_id) (get_total_pages (fetch 1)))

/-! ### Derived helpers used by the theorems -/

/-- Whether `process_page` will succeed for a page: the fetch yields a
document and the extraction retains at least one item.  This depends
only on the fetch outcome, not on the checkpoint state. -/
def pageOk (fetch : Nat → Option Html) (p : Nat) : Bool :=
  match fetch p with
  | none => false
  | some h => !(extract_products_from_html h.events).isEmpty

/-- Backoff delays slept by `k` consecutive retries starting from delay
`b` (in base-delay units), following `backoff = min(backoff * 2, 8.0)`. -/
def backoffs : Nat → Nat → List Nat
  | 0, _ => []
  | k + 1, b => b :: backoffs k (min (b * 2) 32)

/-! ### Concrete scenario data -/

/-- Event stream of one complete card: product id 7, a metadata name,
and a price in the card text. -/
def itemEvts : List HtmlEvent :=
  [.startTag "li" [("class", "listing-cards__item"), ("data-product-id", "7")],
   .startTag "meta" [("itemprop", "name"), ("content", "Товар один")],
   .endTag "meta",
   .textData "999",
   .endTag "li"]

/-- A listing document with one retained item and no pagination. -/
def itemHtml : Html := { events := itemEvts, pageMarkers := [] }

/-- A fetched document with no cards and no pagination markers. -/
def emptyHtml : Html := { events := [], pageMarkers := [] }

/-- A listing page with two cards: a well-formed one (metadata name and
a price in a price block) and one with a name but no price anywhere. -/
def twoItemPage : List HtmlEvent :=
  [.startTag "li" [("class", "listing-cards__item"), ("data-product-id", "101")],
   .startTag "meta" [("itemprop", "name"), ("content", "Труба стальная 57х3.5")],
   .endTag "meta",
   .startTag "div" [("class", "card__price")],
   .textData "12 345,67 ₽",
   .endTag "div",
   .endTag "li",
   .startTag "li" [("class", "listing-cards__item"), ("data-product-id", "102")],
   .startTag "meta" [("itemprop", "name"), ("content", "Отвод стальной 89")],
   .endTag "meta",
   .endTag "li"]

/-- Fetch behaviour for the out-of-order completion scenario: page 1
paginates to 6, pages 5 and 6 carry one item each. -/
def c1Fetch : Nat → Option Html := fun p =>
  if p = 1 then some { events := [], pageMarkers := [2, 6] }
  else if p = 5 || p = 6 then some itemHtml
  else none

/-- Checkpoint resuming category 1 at page 5. -/
def c1Pr : Progress := { completed_categories := [], category_pages := [("1", 5)] }

/-- Category-1 run whose two scheduled pages complete out of order:
page 6 first, then page 5. -/
def c1Run : CategoryRun := process_category_async c1Fetch 1 "cat" c1Pr [6, 5]

/-- Two distinct checkpoint documents for the atomicity scenario. -/
def c2Old : Progress := { completed_categories := [], category_pages := [("42", 5)] }

/-- Checkpoint document after the category-42 cursor advanced. -/
def c2New : Progress := { completed_categories := [], category_pages := [("42", 6)] }

/-- Fetch behaviour where every page succeeds but contains no items. -/
def c3Fetch : Nat → Option Html := fun _ => some emptyHtml

/-- Checkpoint resuming category 42 at page 5. -/
def c4Pr : Progress := { completed_categories := [], category_pages := [("42", 5)] }

/-- Fetch behaviour for the resume scenario: page 1 paginates to 6 and
every page carries one item. -/
def c4Fetch : Nat → Option Html := fun _ => some { events := itemEvts, pageMarkers := [2, 6] }

/-- Fetch behaviour with a permanently failing page: page 1 paginates
to 3 and carries an item, page 3 carries an item, page 2 always fails
(its retries are exhausted). -/
def c5Fetch : Nat → Option Html := fun p =>
  if p = 1 then some { events := itemEvts, pageMarkers := [3] }
  else if p = 3 then some itemHtml
  else none

/-- Empty starting checkpoint. -/
def emptyPr : Progress := { completed_categories := [], category_pages := [] }

/-- Category-9 run where page 2 of 3 permanently fails. -/
def c5Run : CategoryRun := process_category_async c5Fetch 9 "cat" emptyPr [1, 2, 3]

/-- Category-3 run whose page 1 cannot be fetched at all. -/
def c6Run : CategoryRun := process_category_async (fun _ => none) 3 "cat" emptyPr []

/-- The row that upserting the parsed item of `itemEvts` produces for
category 1: the `sku` column carries the item's extracted name. -/
def c10Row : Row :=
  { sku := "Товар один", price := some 99900, category_id := 1, category_slug := "cat",
    product_id := .inl 7, product_name := "Товар один", product_img := none,
    product_characs := [], slug := none }

/-! ## Lemmas about the embedded dictionary -/

/-- Overwriting branch of `setKey`: when the key is present, the mapped
list's first hit for the key carries the new value. -/
theorem find?_overwrite (k : String) (v : Nat) :
    ∀ m : List (String × Nat), m.any (fun p => p.1 = k) = true →
      (m.map (fun p => if p.1 = k then (k, v) else p)).find? (fun p => p.1 = k) = some (k, v)
  | [], h => by simp at h
  | a :: m, h => by
    by_cases ha : a.1 = k
    · simp [List.find?_cons, ha]
    · have hm : m.any (fun p => p.1 = k) = true := by
        simpa [List.any_cons, ha] using h
      simp [List.find?_cons, ha, find?_overwrite k v m hm]

/-- Appending branch of `setKey`: when the key is absent, the appended
binding is the first hit. -/
theorem find?_concat_key (k : String) (v : Nat) :
    ∀ m : List (String × Nat), m.any (fun p => p.1 = k) = false →
      (m ++ [(k, v)]).find? (fun p => p.1 = k) = some (k, v)
  | [], _ => by simp
  | a :: m, h => by
    have ha : ¬a.1 = k := by
      intro hk
      simp [List.any_cons, hk] at h
    have hm : m.any (fun p => p.1 = k) = false := by
      simpa [List.any_cons, ha] using h
    simp [List.find?_cons, ha, find?_concat_key k v m hm]

/-- Reading back a key just written always yields the written value. -/
theorem getKey_setKey (m : List (String × Nat)) (k : String) (v : Nat) :
    getKey (setKey m k v) k = some v := by
  unfold getKey setKey
  by_cases h : m.any (fun p => p.1 = k) = true
  · rw [if_pos h, find?_overwrite k v m h]
    rfl
  · rw [if_neg h, find?_concat_key k v m (Bool.eq_false_iff.mpr h)]
    rfl

/-- Case analysis of `process_page`: the failing fetch case. -/
theorem process_page_fetch_fail (fetch : Nat → Option Html) (page : Nat)
    (category_id : Int) (category_slug : String) (pr : Progress)
    (hf : fetch page = none) :
    process_page fetch page category_id category_slug pr = (false, pr, []) := by
  unfold process_page
  rw [hf]

/-- Case analysis of `process_page`: a fetched page with no retained
items reports failure and leaves the checkpoint untouched. -/
theorem process_page_empty (fetch : Nat → Option Html) (page : Nat)
    (category_id : Int) (category_slug : String) (pr : Progress) (html : Html)
    (hf : fetch page = some html)
    (he : extract_products_from_html html.events = []) :
    process_page fetch page category_id category_slug pr = (false, pr, []) := by
  unfold process_page
  rw [hf]
  simp [he]

/-- Case analysis of `process_page`: a fetched page with retained items
succeeds, writes cursor page + 1, and upserts one batch entry per
retained item. -/
theorem process_page_items (fetch : Nat → Option Html) (page : Nat)
    (category_id : Int) (category_slug : String) (pr : Progress) (html : Html)
    (hf : fetch page = some html)
    (he : extract_products_from_html html.events ≠ []) :
    process_page fetch page category_id category_slug pr =
      (true,
       { pr with category_pages := setKey pr.category_pages (toString category_id) (page + 1) },
       (extract_products_from_html html.events).map
         (fun prod => mkBatchEntry prod category_id category_slug)) := by
  unfold process_page
  rw [hf]
  simp [he]

/-- A successful `process_page` sets the category's persisted cursor to
the completed page + 1, whatever its previous value. -/
theorem process_page_ok_cursor (fetch : Nat → Option Html) (page : Nat)
    (category_id : Int) (category_slug : String) (pr : Progress)
    (h : (process_page fetch page category_id category_slug pr).1 = true) :
    getKey (process_page fetch page category_id category_slug pr).2.1.category_pages
      (toString category_id) = some (page + 1) := by
  cases hf : fetch page with
  | none => rw [process_page_fetch_fail fetch page category_id category_slug pr hf] at h; simp at h
  | some html =>
    by_cases he : extract_products_from_html html.events = []
    · rw [process_page_empty fetch page category_id category_slug pr html hf he] at h
      simp at h
    · rw [process_page_items fetch page category_id category_slug pr html hf he]
      exact getKey_setKey _ _ _

/-! ## Claim C1: monotone min-of-unfinished cursor -/

/-- Claim C1 as stated is false.  Category 1 resumes at page 5 with
total 6 pages, so the scheduled pages are {5, 6}.  When page 6's task
completes first, the persisted cursor becomes 7, although the lowest
unfinished scheduled page is 5 (so the persisted value is not
`min(unfinished)`); when page 5 then completes, the persisted cursor
drops to 6 < 7, regressing below a previously persisted value (so the
cursor is not monotonically non-decreasing). -/
theorem C1_counterexample :
    getKey c1Pr.category_pages "1" = some 5 ∧
    get_total_pages (c1Fetch 1) = 6 ∧
    c1Run.persistTrace.map (fun p => getKey p.category_pages "1") =
      [some 7, some 6, none] ∧
    (6 : Nat) < 7 ∧ (7 : Nat) ≠ 5 := by
  decide

/-- Claim C1 amended: after each page completion the persisted cursor
for the category equals that completed page + 1 — a last-writer value
written independently of the other scheduled pages (lines 473-478), so
under out-of-order completion it can fall below a previously persisted
value and need not equal the minimum unfinished page. -/
theorem C1_cursor_last_writer (fetch : Nat → Option Html) (page : Nat)
    (category_id : Int) (category_slug : String) (pr : Progress)
    (h : (process_page fetch page category_id category_slug pr).1 = true) :
    getKey (process_page fetch page category_id category_slug pr).2.1.category_pages
      (toString category_id) = some (page + 1) :=
  process_page_ok_cursor fetch page category_id category_slug pr h

/-- Witness for `C1_cursor_last_writer` at page 6 of the concrete
scenario. -/
theorem C1_cursor_last_writer_witness :
    (process_page c1Fetch 6 1 "cat" c1Pr).1 = true ∧
    getKey (process_page c1Fetch 6 1 "cat" c1Pr).2.1.category_pages
      (toString (1 : Int)) = some 7 :=
  ⟨by decide, C1_cursor_last_writer c1Fetch 6 1 "cat" c1Pr (by decide)⟩

/-! ## Claim C2: atomic write-temp-then-replace persistence -/

/-- Claim C2 as stated is false.  During a save a concurrent reader can
observe the truncated file, which is neither the complete previous
content nor the complete new content; the observable sequence of a
direct truncate-and-write differs from that of an atomic replace. -/
theorem C2_counterexample :
    FileState.truncated ∈ save_progress c2Old c2New ∧
    FileState.truncated ≠ FileState.full c2Old ∧
    FileState.truncated ≠ FileState.full c2New ∧
    save_progress c2Old c2New ≠ atomicSave c2Old c2New := by
  decide

/-- Claim C2 amended: every checkpoint mutation is persisted by
serializing in memory and writing directly into the checkpoint file
(truncate-then-write, lines 893-899): the save does end with the
complete new content, but it is not write-temp-then-replace, and a
concurrent reader can observe a truncated file. -/
theorem C2_direct_write (old new : Progress) :
    (save_progress old new).head? = some (.full old) ∧
    (save_progress old new).getLast? = some (.full new) ∧
    FileState.truncated ∈ save_progress old new := by
  refine ⟨rfl, rfl, ?_⟩
  simp [save_progress]

/-! ## Claim C3: zero-item pages and cursor advancement -/

/-- Claim C3 as stated is false.  Page 5 of category 1 fetches
successfully but yields no retained item; `process_page` returns at
line 449 before the checkpoint update, so the persisted cursor stays at
5 instead of advancing to 6. -/
theorem C3_counterexample :
    (c3Fetch 5).isSome = true ∧
    extract_products_from_html emptyHtml.events = [] ∧
    process_page c3Fetch 5 1 "cat" c1Pr = (false, c1Pr, []) ∧
    getKey (process_page c3Fetch 5 1 "cat" c1Pr).2.1.category_pages "1" = some 5 := by
  decide

/-- Claim C3 amended: a successfully fetched page advances the cursor
to page + 1 only when at least one parsed item is retained; a page
whose extraction is empty (no cards, or items all invalid — the
extraction already filters) leaves the checkpoint untouched and reports
failure. -/
theorem C3_zero_item_no_advance (fetch : Nat → Option Html) (page : Nat)
    (category_id : Int) (category_slug : String) (pr : Progress) (html : Html)
    (hf : fetch page = some html) :
    (extract_products_from_html html.events = [] →
      process_page fetch page category_id category_slug pr = (false, pr, [])) ∧
    (extract_products_from_html html.events ≠ [] →
      (process_page fetch page category_id category_slug pr).1 = true ∧
      getKey (process_page fetch page category_id category_slug pr).2.1.category_pages
        (toString category_id) = some (page + 1)) := by
  constructor
  · exact fun he => process_page_empty fetch page category_id category_slug pr html hf he
  · intro he
    have h1 : (process_page fetch page category_id category_slug pr).1 = true := by
      rw [process_page_items fetch page category_id category_slug pr html hf he]
    exact ⟨h1, process_page_ok_cursor fetch page category_id category_slug pr h1⟩

/-- Witness for `C3_zero_item_no_advance`: the empty page 5 leaves the
checkpoint unchanged; the item-bearing page 5 advances to 6. -/
theorem C3_zero_item_no_advance_witness :
    process_page c3Fetch 5 1 "cat" c1Pr = (false, c1Pr, []) ∧
    (process_page c1Fetch 5 1 "cat" c1Pr).1 = true :=
  ⟨(C3_zero_item_no_advance c3Fetch 5 1 "cat" c1Pr emptyHtml (by decide)).1 (by decide),
   ((C3_zero_item_no_advance c1Fetch 5 1 "cat" c1Pr itemHtml (by decide)).2 (by decide)).1⟩

/-! ## Lemmas about category runs -/

/-- Success of one page depends only on the fetch outcome. -/
theorem process_page_fst (fetch : Nat → Option Html) (page : Nat)
    (category_id : Int) (category_slug : String) (pr : Progress) :
    (process_page fetch page category_id category_slug pr).1 = pageOk fetch page := by
  unfold process_page pageOk
  cases fetch page with
  | none => rfl
  | some html =>
    by_cases he : (extract_products_from_html html.events).isEmpty = true <;> simp [he]

/-- Pages actually fetched by a category run: page 1 (for sizing), and
every page of the completion order when the total is nonzero. -/
theorem process_category_fetched (fetch : Nat → Option Html) (category_id : Int)
    (category_slug : String) (pr : Progress) (order : List Nat) :
    (process_category_async fetch category_id category_slug pr order).fetchedPages =
      if get_total_pages (fetch 1) = 0 then [1] else 1 :: order := by
  unfold process_category_async
  by_cases h : get_total_pages (fetch 1) = 0 <;> simp [h]

/-- Lengths through the completion fold: each successful page adds one
persisted snapshot and one batch; failed pages add nothing. -/
theorem categoryStep_foldl_lens (fetch : Nat → Option Html) (category_id : Int)
    (category_slug : String) :
    ∀ (order : List Nat) (acc : Progress × List Progress × List (List BatchEntry)),
      (order.foldl (categoryStep fetch category_id category_slug) acc).2.1.length =
        acc.2.1.length + (order.filter (pageOk fetch)).length ∧
      (order.foldl (categoryStep fetch category_id category_slug) acc).2.2.length =
        acc.2.2.length + (order.filter (pageOk fetch)).length
  | [], acc => by simp
  | p :: order, acc => by
    rw [List.foldl_cons, List.filter_cons]
    by_cases hp : pageOk fetch p = true
    · have hstep : (categoryStep fetch category_id category_slug acc p).2.1.length =
          acc.2.1.length + 1 ∧
          (categoryStep fetch category_id category_slug acc p).2.2.length =
          acc.2.2.length + 1 := by
        unfold categoryStep
        dsimp only
        rw [process_page_fst fetch p category_id category_slug acc.1, hp]
        simp
      have ih := categoryStep_foldl_lens fetch category_id category_slug order
        (categoryStep fetch category_id category_slug acc p)
      rw [if_pos hp]
      constructor
      · rw [ih.1, hstep.1, List.length_cons]; omega
      · rw [ih.2, hstep.2, List.length_cons]; omega
    · have hstep : categoryStep fetch category_id category_slug acc p = acc := by
        unfold categoryStep
        dsimp only
        rw [process_page_fst fetch p category_id category_slug acc.1,
          Bool.eq_false_iff.mpr hp]
        simp
      rw [if_neg hp, hstep]
      exact categoryStep_foldl_lens fetch category_id category_slug order acc

/-- Membership through ascending insertion. -/
theorem mem_insertSortedInt (a x : Int) :
    ∀ l : List Int, a ∈ insertSortedInt x l ↔ a = x ∨ a ∈ l
  | [] => by simp [insertSortedInt]
  | y :: rest => by
    by_cases h : x ≤ y
    · simp [insertSortedInt, h]
    · simp [insertSortedInt, h, mem_insertSortedInt a x rest]
      tauto

/-- Sorting preserves membership. -/
theorem mem_sortInts (a : Int) : ∀ l : List Int, a ∈ sortInts l ↔ a ∈ l
  | [] => by simp [sortInts]
  | y :: rest => by
    simp [sortInts, List.foldr_cons, mem_insertSortedInt]
    rw [show rest.foldr insertSortedInt [] = sortInts rest from rfl,
      mem_sortInts a rest]

/-- A deleted key reads back as absent. -/
theorem getKey_delKey (m : List (String × Nat)) (k : String) :
    getKey (delKey m k) k = none := by
  unfold getKey delKey
  rw [List.find?_eq_none.mpr]
  · rfl
  · intro x hx
    rcases List.mem_filter.mp hx with ⟨-, hne⟩
    simpa using hne

/-- Every category run with a nonzero page total ends completed: the
category id joins the completed set, its cursor is deleted, and one
batch was upserted (and one snapshot persisted) per successful page of
the completion order, whatever pages failed in between. -/
theorem process_category_complete (fetch : Nat → Option Html) (category_id : Int)
    (category_slug : String) (pr : Progress) (order : List Nat)
    (h : get_total_pages (fetch 1) ≠ 0) :
    category_id ∈
      (process_category_async fetch category_id category_slug pr order).final.completed_categories ∧
    getKey (process_category_async fetch category_id category_slug pr order).final.category_pages
      (toString category_id) = none ∧
    (process_category_async fetch category_id category_slug pr order).batches.length =
      (order.filter (pageOk fetch)).length ∧
    (process_category_async fetch category_id category_slug pr order).persistTrace.length =
      (order.filter (pageOk fetch)).length + 1 := by
  unfold process_category_async
  simp only [h, if_false]
  refine ⟨?_, ?_, ?_, ?_⟩
  · rw [show (complete_category _ category_id).completed_categories =
      sortInts ((category_id :: _).dedup) from rfl]
    rw [mem_sortInts]
    simp
  · exact getKey_delKey _ _
  · simpa using (categoryStep_foldl_lens fetch category_id category_slug order (pr, [], [])).2
  · have := (categoryStep_foldl_lens fetch category_id category_slug order (pr, [], [])).1
    simp at this
    simp [this]

/-! ## Claim C4: resume correctness -/

/-- Claim C4 as stated is false.  With checkpoint
`category_pages = {"42": 5}`, the orchestrator still fetches page 1 —
`async_get_total_pages` always downloads page 1 to size the category —
so a fetch for a page number below 5 is issued. -/
theorem C4_counterexample :
    getKey c4Pr.category_pages "42" = some 5 ∧
    get_total_pages (c4Fetch 1) = 6 ∧
    (process_category_seq c4Fetch 42 "slug" c4Pr).fetchedPages = [1, 5, 6] ∧
    (1 : Nat) ∈ (process_category_seq c4Fetch 42 "slug" c4Pr).fetchedPages ∧
    (1 : Nat) < 5 := by
  decide

/-- Claim C4 amended: apart from the single page-1 sizing fetch, a run
resuming category `id` from checkpoint cursor `N` fetches no page below
`N`; when the category has at least `N` pages, the scheduled processing
begins at page `N` (the fetch order is page 1 then page `N`). -/
theorem C4_resume (fetch : Nat → Option Html) (category_id : Int) (category_slug : String)
    (pr : Progress) (N : Nat)
    (hN : getKey pr.category_pages (toString category_id) = some N) :
    (∀ p ∈ (process_category_seq fetch category_id category_slug pr).fetchedPages,
        p = 1 ∨ N ≤ p) ∧
    (1 ≤ N → N ≤ get_total_pages (fetch 1) →
      (process_category_seq fetch category_id category_slug pr).fetchedPages.take 2 =
        [1, N]) := by
  have hstart : start_page_of pr category_id = N := by
    unfold start_page_of
    rw [hN]
    rfl
  unfold process_category_seq
  rw [process_category_fetched]
  by_cases h : get_total_pages (fetch 1) = 0
  · rw [if_pos h]
    constructor
    · intro p hp
      left
      simpa using hp
    · intro h1 h2
      omega
  · rw [if_neg h]
    constructor
    · intro p hp
      rcases List.mem_cons.mp hp with h1 | h2
      · left; exact h1
      · right
        rw [hstart] at h2
        unfold scheduledPages at h2
        exact (List.mem_range'_1.mp h2).1
    · intro h1 h2
      rw [hstart]
      unfold scheduledPages
      obtain ⟨k, hk⟩ : ∃ k, get_total_pages (fetch 1) + 1 - N = k + 1 :=
        ⟨get_total_pages (fetch 1) - N, by omega⟩
      rw [hk]
      rfl

/-- Witness for `C4_resume` at the concrete resume scenario. -/
theorem C4_resume_witness :
    ((5 : Nat) = 1 ∨ (5 : Nat) ≤ 5) ∧
    (process_category_seq c4Fetch 42 "slug" c4Pr).fetchedPages.take 2 = [1, 5] :=
  ⟨(C4_resume c4Fetch 42 "slug" c4Pr 5 (by decide)).1 5 (by decide),
   (C4_resume c4Fetch 42 "slug" c4Pr 5 (by decide)).2 (by decide) (by decide)⟩

/-! ## Claim C5: permanently failed pages -/

/-- Claim C5 as stated is false.  In a 3-page category whose page 2
permanently fails, the run does not abort (pages 1 and 3 are processed
and persisted), but after page 3 the persisted cursor is 4 — past the
failed page 2 — and the category is recorded complete, so a future run
(which skips completed categories) never re-fetches page 2. -/
theorem C5_counterexample :
    c5Fetch 2 = none ∧
    c5Run.final.completed_categories = [9] ∧
    c5Run.persistTrace.map (fun p => getKey p.category_pages "9") =
      [some 2, some 4, none] ∧
    getKey c5Run.final.category_pages "9" = none := by
  decide

/-- Claim C5 amended: a page whose retries are exhausted does not abort
the category — every other page of the completion order is still
processed and upserted (one batch per successful page) — but the
category is nevertheless marked complete at the end of the run
regardless of failures, its cursor is deleted, and sibling successes
move the cursor past the failed page, so a future run does not re-fetch
it. -/
theorem C5_no_abort_but_complete (fetch : Nat → Option Html) (category_id : Int)
    (category_slug : String) (pr : Progress) (order : List Nat)
    (h : get_total_pages (fetch 1) ≠ 0) :
    category_id ∈
      (process_category_async fetch category_id category_slug pr order).final.completed_categories ∧
    getKey (process_category_async fetch category_id category_slug pr order).final.category_pages
      (toString category_id) = none ∧
    (process_category_async fetch category_id category_slug pr order).batches.length =
      (order.filter (pageOk fetch)).length :=
  have H := process_category_complete fetch category_id category_slug pr order h
  ⟨H.1, H.2.1, H.2.2.1⟩

/-- Witness for `C5_no_abort_but_complete` at the failed-page-2
scenario. -/
theorem C5_no_abort_but_complete_witness :
    (9 : Int) ∈ c5Run.final.completed_categories ∧
    getKey c5Run.final.category_pages (toString (9 : Int)) = none ∧
    c5Run.batches.length = ([1, 2, 3].filter (pageOk c5Fetch)).length :=
  C5_no_abort_but_complete c5Fetch 9 "cat" emptyPr [1, 2, 3] (by decide)

/-! ## Claim C6: degenerate categories -/

/-- Claim C6 as stated is false on both branches.  When page 1 cannot
be fetched the total is 0 but the orchestrator returns at line 491
without marking the category complete (category 3 is absent from the
final completed set); and a fetched page 1 with no pagination markers
and no items yields a total of 1 page, not 0. -/
theorem C6_counterexample :
    (fun (_ : Nat) => (none : Option Html)) 1 = none ∧
    get_total_pages ((fun (_ : Nat) => (none : Option Html)) 1) = 0 ∧
    c6Run.final = emptyPr ∧
    (3 : Int) ∉ c6Run.final.completed_categories ∧
    get_total_pages (some emptyHtml) = 1 := by
  decide

/-- Claim C6 amended: a category whose page 1 cannot be fetched is
treated as 0 pages and the orchestrator returns without error and
without touching the checkpoint (it is not marked complete); a category
whose page 1 is fetched but shows no pagination markers is treated as
having 1 page and, after that page is attempted, is marked complete. -/
theorem C6_degenerate (fetch : Nat → Option Html) (category_id : Int)
    (category_slug : String) (pr : Progress) (order : List Nat) :
    (fetch 1 = none →
      process_category_async fetch category_id category_slug pr order =
        { final := pr, persistTrace := [], fetchedPages := [1], batches := [] }) ∧
    (∀ html, fetch 1 = some html → html.pageMarkers = [] →
      get_total_pages (fetch 1) = 1 ∧
      category_id ∈
        (process_category_async fetch category_id category_slug pr order).final.completed_categories) := by
  constructor
  · intro hf
    unfold process_category_async
    rw [show get_total_pages (fetch 1) = 0 by rw [hf]; rfl]
    simp
  · intro html hf hm
    have h1 : get_total_pages (fetch 1) = 1 := by
      rw [hf]
      unfold get_total_pages
      simp [hm]
    exact ⟨h1,
      (process_category_complete fetch category_id category_slug pr order (by omega)).1⟩

/-- Witness for `C6_degenerate` at the unfetchable and the
marker-free scenarios. -/
theorem C6_degenerate_witness :
    process_category_async (fun _ => none) 3 "cat" emptyPr [] =
      { final := emptyPr, persistTrace := [], fetchedPages := [1], batches := [] } ∧
    (3 : Int) ∈
      (process_category_async (fun _ => some emptyHtml) 3 "cat" emptyPr [1]).final.completed_categories :=
  ⟨(C6_degenerate (fun _ => none) 3 "cat" emptyPr []).1 rfl,
   ((C6_degenerate (fun _ => some emptyHtml) 3 "cat" emptyPr [1]).2 emptyHtml rfl rfl).2⟩

/-! ## Claim C7: retry policy and failure results -/

/-- Claim C7 as stated is false in its last part.  Exhausting retries
on persistent 503 responses returns `None` after backoffs 0.25, 0.5,
1.0, 2.0 s (in base-delay units: 1, 2, 4, 8), and a non-retryable 404
also returns `None` immediately: the two failure results are the same
value, not distinguishable. -/
theorem C7_counterexample :
    async_fetch_listing (fun _ => .http 503 none) = (none, [1, 2, 4, 8]) ∧
    async_fetch_listing (fun _ => .http 404 none) = (none, []) ∧
    (async_fetch_listing (fun _ => .http 503 none)).1 =
      (async_fetch_listing (fun _ => .http 404 none)).1 := by
  decide

/-- Sleeps of the retry loop follow the doubling backoff chain. -/
theorem fetchGo_sleeps (resp : Nat → FetchResp) :
    ∀ (remaining attempt b : Nat) (s : List Nat),
      ∃ k ≤ remaining, (fetchGo resp attempt remaining b s).2 = s ++ backoffs k b
  | 0, _, b, s => ⟨0, Nat.le_refl 0, by simp [fetchGo, backoffs]⟩
  | remaining + 1, attempt, b, s => by
    unfold fetchGo
    cases hr : resp attempt with
    | http code body =>
      by_cases h200 : (code = 200 && body.isSome) = true
      · exact ⟨0, by omega, by simp [h200, backoffs]⟩
      · by_cases hretry : retryableStatus code = true
        · obtain ⟨k, hk, he⟩ :=
            fetchGo_sleeps resp remaining (attempt + 1) (min (b * 2) 32) (s ++ [b])
          refine ⟨k + 1, by omega, ?_⟩
          simp only [h200, Bool.false_eq_true, if_false, hretry, if_true]
          rw [he]
          simp [backoffs]
        · exact ⟨0, by omega,
            by simp [h200, Bool.eq_false_iff.mpr hretry, backoffs]⟩
    | otherError => exact ⟨0, by omega, by simp [backoffs]⟩
    | readTimeout =>
      obtain ⟨k, hk, he⟩ :=
        fetchGo_sleeps resp remaining (attempt + 1) (min (b * 2) 32) (s ++ [b])
      exact ⟨k + 1, by omega, by rw [show (backoffs (k+1) b) = b :: backoffs k (min (b*2) 32) from rfl]; simpa using he⟩
    | connectTimeout =>
      obtain ⟨k, hk, he⟩ :=
        fetchGo_sleeps resp remaining (attempt + 1) (min (b * 2) 32) (s ++ [b])
      exact ⟨k + 1, by omega, by rw [show (backoffs (k+1) b) = b :: backoffs k (min (b*2) 32) from rfl]; simpa using he⟩
    | remoteProtocolError =>
      obtain ⟨k, hk, he⟩ :=
        fetchGo_sleeps resp remaining (attempt + 1) (min (b * 2) 32) (s ++ [b])
      exact ⟨k + 1, by omega, by rw [show (backoffs (k+1) b) = b :: backoffs k (min (b*2) 32) from rfl]; simpa using he⟩
    | connectError =>
      obtain ⟨k, hk, he⟩ :=
        fetchGo_sleeps resp remaining (attempt + 1) (min (b * 2) 32) (s ++ [b])
      exact ⟨k + 1, by omega, by rw [show (backoffs (k+1) b) = b :: backoffs k (min (b*2) 32) from rfl]; simpa using he⟩

/-- The sleeps of a whole fetch are always an initial segment of the
chain 1, 2, 4, 8 base-delay units (0.25, 0.5, 1.0, 2.0 s); with only 4
attempts the 8-second cap is never reached. -/
theorem async_sleeps_chain (resp : Nat → FetchResp) :
    ∃ k ≤ 4, (async_fetch_listing resp).2 = List.take k [1, 2, 4, 8] := by
  obtain ⟨k, hk, he⟩ := fetchGo_sleeps resp 4 0 1 []
  refine ⟨k, hk, ?_⟩
  rw [show async_fetch_listing resp = fetchGo resp 0 4 1 [] from rfl, he]
  interval_cases k <;> rfl

/-- Claim C7 amended: transient conditions (HTTP 429/500/502/503/504
and the four transport errors) are retried with exponential backoff
starting at 0.25 s and doubling — always an initial segment of 0.25,
0.5, 1.0, 2.0 s, the nominal 8 s cap being unreachable in 4 attempts —
for at most 4 attempts; a non-retryable status such as 404 returns the
failure value `None` immediately without sleeping; and exhaustion also
returns `None`: the fetch never raises, but its exhausted-transient
failure result is the same `None` as the non-retryable one, not a
distinguishable value. -/
theorem C7_retry_backoff (resp : Nat → FetchResp) :
    (∃ k ≤ 4, (async_fetch_listing resp).2 = List.take k [1, 2, 4, 8]) ∧
    (∀ body, resp 0 = FetchResp.http 404 body → async_fetch_listing resp = (none, [])) ∧
    async_fetch_listing (fun _ => FetchResp.http 503 none) = (none, [1, 2, 4, 8]) := by
  refine ⟨async_sleeps_chain resp, ?_, by decide⟩
  intro body h404
  show fetchGo resp 0 4 1 [] = (none, [])
  unfold fetchGo
  rw [h404]
  simp [retryableStatus]

/-- Witness for `C7_retry_backoff` on an immediate 404. -/
theorem C7_retry_backoff_witness :
    async_fetch_listing (fun _ => FetchResp.http 404 none) = (none, []) :=
  (C7_retry_backoff (fun _ => FetchResp.http 404 none)).2.1 none rfl

/-! ## Claim C8: price normalization -/

theorem phi_isDigit (c : Char) :
    (if c = nbsp then ' ' else c).isDigit = c.isDigit := by
  by_cases h : c = nbsp
  · rw [if_pos h, h]
    decide
  · rw [if_neg h]

theorem phi_isPyWs (c : Char) :
    isPyWs (if c = nbsp then ' ' else c) = isPyWs c := by
  by_cases h : c = nbsp
  · rw [if_pos h, h]
    decide
  · rw [if_neg h]

theorem takeWhile_congr_mem {α : Type} (p q : α → Bool) :
    ∀ l : List α, (∀ x ∈ l, p x = q x) → l.takeWhile p = l.takeWhile q
  | [], _ => rfl
  | a :: l, h => by
    rw [List.takeWhile_cons, List.takeWhile_cons, h a (by simp),
      takeWhile_congr_mem p q l (fun x hx => h x (by simp [hx]))]

theorem all_filter_self (p : Char → Bool) : ∀ l : List Char, (l.filter p).all p = true
  | [] => rfl
  | c :: l => by
    rw [List.filter_cons]
    by_cases h : p c = true <;> simp [h, all_filter_self p l]

theorem priceSearch_eq_none (cs : List Char)
    (h : cs.dropWhile (fun c => !c.isDigit) = []) : priceSearch cs = none := by
  unfold priceSearch
  rw [h]

theorem filter_phi_digits :
    ∀ l : List Char, (∀ c ∈ l, (c.isDigit || c = ' ' || c = nbsp) = true) →
      (l.map (fun c => if c = nbsp then ' ' else c)).filter (fun c => c ≠ ' ') =
        l.filter Char.isDigit
  | [], _ => rfl
  | c :: l, h => by
    have hc : (c.isDigit = true ∨ c = ' ') ∨ c = nbsp := by simpa using h c (by simp)
    have ih := filter_phi_digits l (fun x hx => h x (by simp [hx]))
    rw [List.map_cons, List.filter_cons, List.filter_cons]
    rcases hc with (hd | he) | he
    · have hcn : ¬c = nbsp := by
        intro e
        rw [e] at hd
        exact absurd hd (by decide)
      have hcs : ¬c = ' ' := by
        intro e
        rw [e] at hd
        exact absurd hd (by decide)
      rw [if_neg hcn, if_pos (show decide (c ≠ ' ') = true by simp [hcs]),
        if_pos hd, ih]
    · subst he
      rw [if_neg (show ¬ ' ' = nbsp by decide),
        if_neg (show ¬decide (' ' ≠ ' ') = true by decide),
        if_neg (show ¬ ' '.isDigit = true by decide)]
      exact ih
    · subst he
      rw [if_pos rfl,
        if_neg (show ¬decide (' ' ≠ ' ') = true by decide),
        if_neg (show ¬nbsp.isDigit = true by decide)]
      exact ih

theorem phi_digit_fix (c : Char) (h : c.isDigit = true) :
    (if c = nbsp then ' ' else c) = c := by
  rw [if_neg]
  intro e
  rw [e] at h
  exact absurd h (by decide)

theorem phi_decide_eq (c s : Char) (hs1 : ¬s = ' ') (hs2 : ¬s = nbsp) :
    decide ((if c = nbsp then ' ' else c) = s) = decide (c = s) := by
  by_cases h : c = nbsp
  · rw [if_pos h, h]
    have h1 : ¬(' ' = s) := fun e => hs1 e.symm
    have h2 : ¬(nbsp = s) := fun e => hs2 e.symm
    simp [h1, h2]
  · rw [if_neg h]

theorem priceSearch_eq_some (cs : List Char) (d : Char) (ds : List Char)
    (h : cs.dropWhile (fun c => !c.isDigit) = d :: ds) :
    priceSearch cs =
      some ((d :: ds).takeWhile (fun c => c.isDigit || isPyWs c),
        match (d :: ds).drop ((d :: ds).takeWhile (fun c => c.isDigit || isPyWs c)).length with
        | c :: d1 :: d2 :: _ =>
          if (c = '.' || c = ',') && d1.isDigit && d2.isDigit then some (d1, d2) else none
        | _ => none) := by
  unfold priceSearch
  rw [h]

theorem parse_price_eq_claim (t : String)
    (H : ∀ c ∈ t.data, isPyWs c = true → c = ' ' ∨ c = nbsp) :
    parse_price t = claimPrice t := by
  unfold parse_price claimPrice
  by_cases ht : t = ""
  · subst ht
    rfl
  · rw [if_neg ht]
    dsimp only
    have hphiD : ∀ c : Char, ((if c = nbsp then ' ' else c).isDigit) = c.isDigit :=
      phi_isDigit
    have hcomp : ((fun c => !c.isDigit) ∘ fun c : Char => if c = nbsp then ' ' else c) =
        (fun c : Char => !c.isDigit) := by
      funext c
      simp only [Function.comp, hphiD c]
    have hrestmap : (t.data.map (fun c => if c = nbsp then ' ' else c)).dropWhile
        (fun c => !c.isDigit) =
        (t.data.dropWhile (fun c => !c.isDigit)).map (fun c => if c = nbsp then ' ' else c) := by
      rw [List.dropWhile_map, hcomp]
    cases hres : t.data.dropWhile (fun c => !c.isDigit) with
    | nil =>
      rw [hres] at hrestmap
      rw [priceSearch_eq_none _ hrestmap]
    | cons d ds =>
      rw [hres] at hrestmap
      rw [List.map_cons] at hrestmap
      rw [priceSearch_eq_some _ _ _ hrestmap]
      have hfold : ((if d = nbsp then ' ' else d) ::
          List.map (fun c : Char => if c = nbsp then ' ' else c) ds) =
          List.map (fun c : Char => if c = nbsp then ' ' else c) (d :: ds) := rfl
      rw [hfold]
      have hmem : ∀ x ∈ d :: ds, x ∈ t.data := by
        intro x hx
        exact (List.dropWhile_sublist (fun c => !c.isDigit)).subset (hres ▸ hx)
      have hpred : ∀ x ∈ d :: ds,
          ((fun c => c.isDigit || isPyWs c) ∘ (fun c : Char => if c = nbsp then ' ' else c)) x =
            (fun c => c.isDigit || decide (c = ' ') || decide (c = nbsp)) x := by
        intro x hx
        simp only [Function.comp]
        rw [hphiD x, phi_isPyWs x]
        by_cases hw : isPyWs x = true
        · rcases H x (hmem x hx) hw with e | e <;> subst e <;> decide
        · rw [Bool.eq_false_iff.mpr hw,
            show decide (x = ' ') = false by
              simp only [decide_eq_false_iff_not]
              intro e
              rw [e] at hw
              exact hw (by decide),
            show decide (x = nbsp) = false by
              simp only [decide_eq_false_iff_not]
              intro e
              rw [e] at hw
              exact hw (by decide)]
          simp
      have hrun : (List.map (fun c : Char => if c = nbsp then ' ' else c) (d :: ds)).takeWhile
          (fun c => c.isDigit || isPyWs c) =
          (List.takeWhile (fun c => c.isDigit || decide (c = ' ') || decide (c = nbsp))
            (d :: ds)).map (fun c : Char => if c = nbsp then ' ' else c) := by
        rw [List.takeWhile_map, takeWhile_congr_mem _ _ _ hpred]
      rw [hrun]
      have hmemrun : ∀ c ∈ List.takeWhile
          (fun c => c.isDigit || decide (c = ' ') || decide (c = nbsp)) (d :: ds),
          (c.isDigit || decide (c = ' ') || decide (c = nbsp)) = true := by
        intro c hc
        have h2 := List.mem_takeWhile_imp hc
        exact h2
      dsimp only
      rw [filter_phi_digits _ hmemrun, List.length_map, ← List.map_drop,
        if_pos (all_filter_self Char.isDigit _)]
      congr 2
      generalize (List.drop (List.takeWhile
        (fun c => c.isDigit || decide (c = ' ') || decide (c = nbsp)) (d :: ds)).length
        (d :: ds)) = as
      cases as with
      | nil => rfl
      | cons c rest =>
        cases rest with
        | nil => rfl
        | cons d1 rest2 =>
          cases rest2 with
          | nil => rfl
          | cons d2 rest3 =>
            dsimp only [List.map_cons]
            rw [phi_decide_eq c '.' (by decide) (by decide),
              phi_decide_eq c ',' (by decide) (by decide),
              hphiD d1, hphiD d2]
            by_cases hcond :
                ((decide (c = '.') || decide (c = ',')) && d1.isDigit && d2.isDigit) = true
            · rw [if_pos hcond, if_pos hcond]
              simp only [Bool.and_eq_true] at hcond
              rw [phi_digit_fix d1 hcond.1.2, phi_digit_fix d2 hcond.2]
            · rw [if_neg hcond, if_neg hcond]


/-- A text without any decimal digit yields no price. -/
theorem parse_price_no_digit (t : String) (h : ∀ c ∈ t.data, c.isDigit = false) :
    parse_price t = none := by
  unfold parse_price
  by_cases ht : t = ""
  · rw [if_pos ht]
  · rw [if_neg ht]
    dsimp only
    have h0 : (t.data.map (fun c => if c = nbsp then ' ' else c)).dropWhile
        (fun c => !c.isDigit) = [] := by
      rw [List.dropWhile_eq_nil_iff]
      intro x hx
      rcases List.mem_map.mp hx with ⟨c, hc, rfl⟩
      rw [show (if c = nbsp then ' ' else c).isDigit = false from
        (phi_isDigit c).trans (h c hc)]
      rfl
    rw [priceSearch_eq_none _ h0]

/-- Claim C8 as stated is false on inputs whose digit run is
interrupted by whitespace other than a plain space or NBSP.  On
"1\t2" the claim's contract (first digit run allowing space/NBSP
separators) finds the run "1" and requires 1.00 (cent count 100), but
the code's regex class `\s` also absorbs the tab, the interior tab then
makes `float("1\t2.00")` raise, and the caught exception turns the
result into null. -/
theorem C8_counterexample :
    parse_price "1\t2" = none ∧
    claimPrice "1\t2" = some 100 ∧
    parse_price "1\t2" ≠ claimPrice "1\t2" := by
  decide

/-- Claim C8 amended: the normalizer never raises and behaves by the
claimed contract — "12 345,67 ₽" yields 12345.67 (cent count 1234567),
"999" yields 999.00 (cent count 99900), "—" yields null, and a text
without digits yields null — and on every input whose whitespace
characters are only plain spaces or NBSPs it computes exactly the
claimed first-digit-run value; a digit run interrupted by other
whitespace (tab, newline, ...) instead yields null, because the regex
absorbs that whitespace into the run and the numeric conversion then
fails. -/
theorem C8_price_contract (t : String) :
    parse_price "12 345,67 ₽" = some 1234567 ∧
    parse_price "999" = some 99900 ∧
    parse_price "—" = none ∧
    ((∀ c ∈ t.data, c.isDigit = false) → parse_price t = none) ∧
    ((∀ c ∈ t.data, isPyWs c = true → c = ' ' ∨ c = nbsp) →
      parse_price t = claimPrice t) :=
  ⟨by decide, by decide, by decide, parse_price_no_digit t, parse_price_eq_claim t⟩

/-- Witness for `C8_price_contract` on a digit-free text and on the
thousands-separated price. -/
theorem C8_price_contract_witness :
    parse_price "нет данных" = none ∧
    parse_price "12 345,67 ₽" = claimPrice "12 345,67 ₽" :=
  ⟨(C8_price_contract "нет данных").2.2.2.1 (by decide),
   (C8_price_contract "12 345,67 ₽").2.2.2.2 (by decide)⟩

/-! ## Claim C9: retention filter of the listing parser -/

/-- Claim C9 confirmed: an item is in the extraction output exactly
when the parser produced it with a non-empty name and a non-null price
(line 316: `if name and (price is not None)`); dropping is silent (the
function is total and returns the remaining records).  Concretely, a
page with one well-formed card and one card lacking any price parses
into two items but yields exactly one output record — the complete
one. -/
theorem C9_retention_filter :
    (∀ (evts : List HtmlEvent) (it : Item),
      it ∈ extract_products_from_html evts ↔
        (it ∈ (runListing evts).items ∧ it.name ≠ "" ∧ it.price.isSome = true)) ∧
    (runListing twoItemPage).items.length = 2 ∧
    (extract_products_from_html twoItemPage).length = 1 ∧
    (extract_products_from_html twoItemPage).map (fun it => it.name) =
      ["Труба стальная 57х3.5"] := by
  refine ⟨?_, by decide, by decide, by decide⟩
  intro evts it
  unfold extract_products_from_html
  rw [List.mem_filter]
  constructor
  · rintro ⟨h1, h2⟩
    simp only [Bool.and_eq_true] at h2
    exact ⟨h1, by simpa using h2.1, h2.2⟩
  · rintro ⟨h1, h2, h3⟩
    refine ⟨h1, ?_⟩
    simp [h2, h3]

/-! ## Claim C10: the sku column carries the extracted name -/

/-- Claim C10 confirmed: every row handed to the upsert sink binds the
`sku` primary-key column to the extracted item's `name` field (the
VALUES clause maps `sku` to `%(name)s`, lines 750-762), and that value
is non-empty because the extraction filter drops every item with an
empty name. -/
theorem C10_sku_is_nonempty_name (fetch : Nat → Option Html) (page : Nat)
    (category_id : Int) (category_slug : String) (pr : Progress) (row : Row)
    (hrow : row ∈ upsert_products (process_page fetch page category_id category_slug pr).2.2) :
    row.sku ≠ "" ∧
    ∃ html, fetch page = some html ∧
      ∃ it ∈ extract_products_from_html html.events, row.sku = it.name := by
  cases hf : fetch page with
  | none =>
    rw [process_page_fetch_fail fetch page category_id category_slug pr hf] at hrow
    simp [upsert_products] at hrow
  | some html =>
    by_cases he : extract_products_from_html html.events = []
    · rw [process_page_empty fetch page category_id category_slug pr html hf he] at hrow
      simp [upsert_products] at hrow
    · rw [process_page_items fetch page category_id category_slug pr html hf he] at hrow
      unfold upsert_products at hrow
      rw [List.map_map, List.mem_map] at hrow
      obtain ⟨it, hit, heq⟩ := hrow
      have hsku : row.sku = it.name := by
        rw [← heq]
        rfl
      refine ⟨?_, html, rfl, it, hit, hsku⟩
      rw [hsku]
      unfold extract_products_from_html at hit
      rcases List.mem_filter.mp hit with ⟨-, hp⟩
      simp only [Bool.and_eq_true] at hp
      simpa using hp.1

/-- Witness for `C10_sku_is_nonempty_name` at the concrete upserted
row of the single-item page. -/
theorem C10_sku_is_nonempty_name_witness :
    c10Row.sku ≠ "" ∧
    ∃ html, c1Fetch 5 = some html ∧
      ∃ it ∈ extract_products_from_html html.events, c10Row.sku = it.name :=
  C10_sku_is_nonempty_name c1Fetch 5 1 "cat" c1Pr c10Row (by decide)

end TrParserHtml
